import Mathlib

/-!
Verification of the induction-motor digital twin in
`digitaltwin_powertrain.py` (class `Motor`).

The floating-point arithmetic of the source is modelled by exact real
arithmetic.  The instance attributes that `Motor.__init__` fixes for the
whole run are collected in the structure `Motor`; the attributes mutated
by the simulation loop (set in `reset_initial_conditions` and updated by
the step methods) are collected in the structure `State`.  Of the 24
parallel output lists filled by `Motor.outputs` only the time channel
`tempo` is carried in the model; every numerical state variable is
updated exactly as in the source.
-/

set_option maxHeartbeats 1000000

noncomputable section

namespace Powertrain

/-- Constant `self.pi23 = 2*np.pi/3` set in `__init__`. -/
def pi23 : ℝ := 2 * Real.pi / 3

/-- Constant `self.rq23 = np.sqrt(2/3)` set in `__init__`. -/
def rq23 : ℝ := Real.sqrt (2 / 3)

/-- Constant `self.rq3 = np.sqrt(3)` set in `__init__`. -/
def rq3 : ℝ := Real.sqrt 3

/-- Constant `self.m = 65/1.5` (stator mass, kg), assigned in
`reset_initial_conditions` and never written anywhere else. -/
def mStator : ℝ := 65 / 1.5

/-- Constant `self.C = 0.385` (specific heat, J/(kg·K)), assigned in
`reset_initial_conditions` and never written anywhere else. -/
def cHeat : ℝ := 0.385

/-- Attributes assigned by `Motor.__init__` and fixed for the whole run. -/
structure Motor where
  rs : ℝ
  rr : ℝ
  ls : ℝ
  lr : ℝ
  msr : ℝ
  lso : ℝ
  f_onda_p : ℝ
  f_onda_m : ℝ
  q1 : ℝ
  q2 : ℝ
  q3 : ℝ
  jm : ℝ
  kf : ℝ
  cte_tempo_mec : ℝ
  idt : ℝ
  p : ℝ
  amsr : ℝ
  valor_mu : ℝ
  h : ℝ
  tmax : ℝ
  hp : ℝ

/-- Attributes mutated over the run: the physics state set by
`reset_initial_conditions` plus the recorded time channel of the output
trace. -/
structure State where
  cl : ℝ
  wm : ℝ
  t : ℝ
  tp : ℝ
  ce : ℝ
  ws : ℝ
  Vsm : ℝ
  Vs : ℝ
  tete : ℝ
  fsd : ℝ
  fsq : ℝ
  frd : ℝ
  frq : ℝ
  isd : ℝ
  isq : ℝ
  ird : ℝ
  irq : ℝ
  iso : ℝ
  temp : ℝ
  tempo : List ℝ

/-- The arithmetic of `Motor.__init__`: machine parameters, derived
constants (`lso = 0.1*ls`, `idt = 1/(ls*lr - mrs*mrs)`,
`amsr = p*idt*msr` with `p = 2`, `cte_tempo_mec = jm/kf`) and the
simulation configuration `h = 1e-5`, `tmax = 1`,
`hp = tmax/2000` clamped up to `h`. -/
def motorFields (rs rr ls lr mrs jm kf q1 q2 q3 valor_mu : ℝ) : Motor :=
  let idt := 1 / (ls * lr - mrs * mrs)
  let h : ℝ := 1e-5
  let tmax : ℝ := 1
  let hp0 := tmax / 2000
  { rs := rs, rr := rr, ls := ls, lr := lr, msr := mrs, lso := 0.1 * ls
    f_onda_p := 50, f_onda_m := 5, q1 := q1, q2 := q2, q3 := q3
    jm := jm, kf := kf, cte_tempo_mec := jm / kf
    idt := idt, p := 2, amsr := 2 * idt * mrs, valor_mu := valor_mu
    h := h, tmax := tmax, hp := if hp0 < h then h else hp0 }

/-- The constructor `Motor.__init__` as a fallible operation: in Python
the two divisions `jm/kf` and `1/(ls*lr - mrs*mrs)` raise
`ZeroDivisionError` when their denominator is zero, so construction
fails exactly then and otherwise yields the record of `motorFields`. -/
def mkMotor (rs rr ls lr mrs jm kf q1 q2 q3 valor_mu : ℝ) : Option Motor :=
  if kf = 0 ∨ ls * lr - mrs * mrs = 0 then none
  else some (motorFields rs rr ls lr mrs jm kf q1 q2 q3 valor_mu)

/-- The reference machine
`Motor(0.39, 1.41, 0.094, 0.094, 0.091, 0.04, 0.01, q1=1, q2=1, q3=0, valor_mu=1)`
used by `Motor.example`. -/
def mo0 : Motor := motorFields 0.39 1.41 0.094 0.094 0.091 0.04 0.01 1 1 0 1

/-- Initial state from `reset_initial_conditions`, with the empty output
trace set up by `__init__`. -/
def initState : State :=
  { cl := 0, wm := 0, t := 0, tp := 0, ce := 0, ws := 377
    Vsm := 220 * Real.sqrt 2, Vs := 220 * Real.sqrt 2, tete := 0
    fsd := 0, fsq := 0, frd := 0, frq := 0
    isd := 0, isq := 0, ird := 0, irq := 0, iso := 0
    temp := 25, tempo := [] }

/-- Method `Motor.source_voltage`: advances the electrical angle by
`h*ws`, wraps it at `2π`, and returns the new state together with the
three phase voltages. -/
def source_voltage (mo : Motor) (s : State) : State × ℝ × ℝ × ℝ :=
  let tete0 := s.tete + mo.h * s.ws
  let tete1 := if tete0 ≥ 2 * Real.pi then tete0 - 2 * Real.pi else tete0
  ({ s with tete := tete1 },
    s.Vs * Real.cos tete1,
    s.Vs * Real.cos (tete1 - pi23),
    s.Vs * Real.cos (tete1 + pi23))

/-- Method `Motor.load_torque`: sets `cl` to `40` once `t ≥ tmax/2`,
and otherwise leaves the state untouched. -/
def load_torque (mo : Motor) (s : State) : State :=
  if s.t ≥ mo.tmax / 2 then { s with cl := 40 } else s

/-- Method `Motor.direct_voltage_and_quadrature`: the phase → dq0
transform applied to the source voltages. -/
def direct_voltage_and_quadrature (vs1 vs2 vs3 : ℝ) : ℝ × ℝ × ℝ :=
  (rq23 * (vs1 - vs2 / 2 - vs3 / 2),
   rq23 * (vs2 * rq3 / 2 - vs3 * rq3 / 2),
   (vs1 + vs2 + vs3) / rq3)

/-- Method `Motor.calculate_derivatives`: the five state derivatives
computed from the present state and the applied dq0 voltage. -/
def calculate_derivatives (mo : Motor) (s : State) (vsd vsq vso : ℝ) :
    ℝ × ℝ × ℝ × ℝ × ℝ :=
  (vsd - mo.rs * s.isd,
   vsq - mo.rs * s.isq,
   -mo.rr * s.ird - s.frq * s.wm,
   -mo.rr * s.irq + s.frd * s.wm,
   (vso - mo.rs * s.iso) / mo.lso)

/-- Method `Motor.update_fluxes_and_currents`: the explicit-Euler update
of the four flux components and of `iso`, returning the updated state
together with `fso = lso * iso` recomputed from the updated `iso`. -/
def update_fluxes_and_currents (mo : Motor) (s : State)
    (dervfsd dervfsq dervfrd dervfrq deriso : ℝ) : State × ℝ :=
  ({ s with
      fsd := s.fsd + dervfsd * mo.h
      fsq := s.fsq + dervfsq * mo.h
      frd := s.frd + dervfrd * mo.h
      frq := s.frq + dervfrq * mo.h
      iso := s.iso + deriso * mo.h },
    mo.lso * (s.iso + deriso * mo.h))

/-- Method `Motor.calculate_electromagnetic_torque`: recomputes the
torque `ce` and the four dq currents from the flux state. -/
def calculate_electromagnetic_torque (mo : Motor) (s : State) : State :=
  { s with
      ce := mo.amsr * (s.fsq * s.frd - s.fsd * s.frq)
      isd := mo.idt * (mo.lr * s.fsd - mo.msr * s.frd)
      isq := mo.idt * (mo.lr * s.fsq - mo.msr * s.frq)
      ird := mo.idt * (-mo.msr * s.fsd + mo.ls * s.frd)
      irq := mo.idt * (-mo.msr * s.fsq + mo.ls * s.frq) }

/-- The dq0 → phase formulas shared by the current and the flux halves
of `Motor.currents_and_fluxes_phases` (the `x1/x2/x3` shape). -/
def fromDQ0 (xd xq xo : ℝ) : ℝ × ℝ × ℝ :=
  (rq23 * xd + xo / rq3,
   rq23 * (-xd / 2 + rq3 * xq / 2) + xo / rq3,
   rq23 * (-xd / 2 - rq3 * xq / 2) + xo / rq3)

/-- Method `Motor.currents_and_fluxes_phases`: phase currents from
`(isd, isq, iso)` and phase fluxes from `(fsd, fsq, fso)`, as the
six-tuple `(is1, is2, is3, fs1, fs2, fs3)`. -/
def currents_and_fluxes_phases (s : State) (fso : ℝ) :
    ℝ × ℝ × ℝ × ℝ × ℝ × ℝ :=
  let i := fromDQ0 s.isd s.isq s.iso
  let f := fromDQ0 s.fsd s.fsq fso
  (i.1, i.2.1, i.2.2, f.1, f.2.1, f.2.2)

/-- Method `Motor.mechanical_speed`: the explicit-Euler speed update
value. -/
def mechanical_speed (mo : Motor) (s : State) : ℝ :=
  s.wm + (s.ce - s.cl - s.wm * mo.kf) * mo.h / mo.jm

/-- Method `Motor.mechanical_torque`. -/
def mechanical_torque (s : State) : ℝ :=
  s.ce - s.cl

/-- Method `Motor.calcular_temperatura`: the thermal update.  Like the
source it takes a step-size argument but internally uses `self.h`, and
it calls `currents_and_fluxes_phases` with the dummy argument
`fso = 1`. -/
def calcular_temperatura (mo : Motor) (h : ℝ) (s : State) : ℝ :=
  let corrente_eficaz :=
    Real.sqrt ((currents_and_fluxes_phases s 1).1 ^ 2 +
      (currents_and_fluxes_phases s 1).2.1 ^ 2 +
      (currents_and_fluxes_phases s 1).2.2.1 ^ 2)
  let potencia_perdida := mo.rs * corrente_eficaz ^ 2
  let dT := potencia_perdida * mo.h / (mStator * cHeat)
  s.temp + dT

/-- Method `Motor.outputs`, restricted to the recorded time channel
`self.tempo.append(self.t)`. -/
def outputs (s : State) : State :=
  { s with tempo := s.tempo ++ [s.t] }

/-- The body of the `while` loop of `Motor.simulate` up to (excluding)
the output-recording conditional. -/
def preRecord (mo : Motor) (s : State) : State :=
  let s1 : State := { s with t := s.t + mo.h }
  let sv := source_voltage mo s1
  let s3 := load_torque mo sv.1
  let v := direct_voltage_and_quadrature sv.2.1 sv.2.2.1 sv.2.2.2
  let d := calculate_derivatives mo s3 v.1 v.2.1 v.2.2
  let u := update_fluxes_and_currents mo s3 d.1 d.2.1 d.2.2.1 d.2.2.2.1 d.2.2.2.2
  let s5 := calculate_electromagnetic_torque mo u.1
  let s6 := { s5 with wm := mechanical_speed mo s5 }
  { s6 with temp := calcular_temperatura mo mo.h s6 }

/-- One full iteration of the `while` loop of `Motor.simulate`,
including the decimated output recording (`if t ≥ tp` then advance `tp`
by `hp` and append a sample). -/
def step (mo : Motor) (s : State) : State :=
  let s7 := preRecord mo s
  if s7.t ≥ s7.tp then outputs { s7 with tp := s7.tp + mo.hp } else s7

/-- The `while self.t < self.tmax` loop of `Motor.simulate`, written
with an explicit fuel bound that is ample for the reference
configuration (100000 iterations). -/
def simulateAux (mo : Motor) : ℕ → State → State
  | 0, s => s
  | n + 1, s => if s.t < mo.tmax then simulateAux mo n (step mo s) else s

/-- Method `Motor.simulate`. -/
def simulate (mo : Motor) (s : State) : State :=
  simulateAux mo 1000000 s

/-!  Basic facts about the reference configuration.  -/

lemma mo0_h : mo0.h = 1e-5 := rfl

lemma mo0_tmax : mo0.tmax = 1 := rfl

lemma mo0_hp : mo0.hp = 1 / 2000 := by
  have : mo0.hp = if (1 : ℝ) / 2000 < 1e-5 then 1e-5 else (1 : ℝ) / 2000 := rfl
  rw [this, if_neg (by norm_num)]

lemma mo0_jm : mo0.jm = 0.04 := rfl

lemma mo0_kf : mo0.kf = 0.01 := rfl

lemma mo0_rs : mo0.rs = 0.39 := rfl

/-!  Clock and trace projections of one simulation step.  -/

lemma load_torque_t (mo : Motor) (s : State) : (load_torque mo s).t = s.t := by
  unfold load_torque; split <;> rfl

lemma load_torque_tp (mo : Motor) (s : State) : (load_torque mo s).tp = s.tp := by
  unfold load_torque; split <;> rfl

lemma load_torque_tempo (mo : Motor) (s : State) : (load_torque mo s).tempo = s.tempo := by
  unfold load_torque; split <;> rfl

lemma preRecord_t (mo : Motor) (s : State) : (preRecord mo s).t = s.t + mo.h := by
  show (load_torque mo (source_voltage mo { s with t := s.t + mo.h }).1).t = s.t + mo.h
  rw [load_torque_t]
  rfl

lemma preRecord_tp (mo : Motor) (s : State) : (preRecord mo s).tp = s.tp := by
  show (load_torque mo (source_voltage mo { s with t := s.t + mo.h }).1).tp = s.tp
  rw [load_torque_tp]
  rfl

lemma preRecord_tempo (mo : Motor) (s : State) : (preRecord mo s).tempo = s.tempo := by
  show (load_torque mo (source_voltage mo { s with t := s.t + mo.h }).1).tempo = s.tempo
  rw [load_torque_tempo]
  rfl

lemma step_eq_ite (mo : Motor) (s : State) :
    step mo s =
      if (preRecord mo s).t ≥ (preRecord mo s).tp then
        outputs { preRecord mo s with tp := (preRecord mo s).tp + mo.hp }
      else preRecord mo s := rfl

lemma step_t (mo : Motor) (s : State) : (step mo s).t = s.t + mo.h := by
  rw [step_eq_ite]
  split <;> exact preRecord_t mo s

lemma step_tp (mo : Motor) (s : State) :
    (step mo s).tp = if s.t + mo.h ≥ s.tp then s.tp + mo.hp else s.tp := by
  rw [step_eq_ite]
  by_cases hc : s.t + mo.h ≥ s.tp
  · rw [if_pos (show (preRecord mo s).t ≥ (preRecord mo s).tp by
      rw [preRecord_t, preRecord_tp]; exact hc), if_pos hc]
    show (preRecord mo s).tp + mo.hp = s.tp + mo.hp
    rw [preRecord_tp]
  · rw [if_neg (show ¬ ((preRecord mo s).t ≥ (preRecord mo s).tp) by
      rw [preRecord_t, preRecord_tp]; exact hc), if_neg hc]
    exact preRecord_tp mo s

lemma step_tempo (mo : Motor) (s : State) :
    (step mo s).tempo =
      if s.t + mo.h ≥ s.tp then s.tempo ++ [s.t + mo.h] else s.tempo := by
  rw [step_eq_ite]
  by_cases hc : s.t + mo.h ≥ s.tp
  · rw [if_pos (show (preRecord mo s).t ≥ (preRecord mo s).tp by
      rw [preRecord_t, preRecord_tp]; exact hc), if_pos hc]
    show (preRecord mo s).tempo ++ [(preRecord mo s).t] = s.tempo ++ [s.t + mo.h]
    rw [preRecord_tempo, preRecord_t]
  · rw [if_neg (show ¬ ((preRecord mo s).t ≥ (preRecord mo s).tp) by
      rw [preRecord_t, preRecord_tp]; exact hc), if_neg hc]
    exact preRecord_tempo mo s

/-!  The zero-input rest scenario (C4).  -/

/-- Zero-input rest: zero source amplitude, zero load torque, zero
fluxes/currents/speed/torque, initial temperature. -/
def atRest (s : State) : Prop :=
  s.Vs = 0 ∧ s.cl = 0 ∧ s.fsd = 0 ∧ s.fsq = 0 ∧ s.frd = 0 ∧ s.frq = 0 ∧
  s.isd = 0 ∧ s.isq = 0 ∧ s.ird = 0 ∧ s.irq = 0 ∧ s.iso = 0 ∧
  s.wm = 0 ∧ s.ce = 0 ∧ s.temp = 25

/-- The reset state with the source-voltage amplitude set to zero. -/
def s0z : State := { initState with Vsm := 0, Vs := 0 }

lemma s0z_atRest : atRest s0z :=
  ⟨rfl, rfl, rfl, rfl, rfl, rfl, rfl, rfl, rfl, rfl, rfl, rfl, rfl, rfl⟩

lemma preRecord_rest (s : State) (hr : atRest s)
    (hlt : ¬ (s.t + mo0.h ≥ mo0.tmax / 2)) : atRest (preRecord mo0 s) := by
  obtain ⟨hVs, hcl, hfsd, hfsq, hfrd, hfrq, hisd, hisq, hird, hirq, hiso,
    hwm, hce, htemp⟩ := hr
  unfold atRest
  simp only [preRecord, source_voltage, load_torque, direct_voltage_and_quadrature,
    calculate_derivatives, update_fluxes_and_currents, calculate_electromagnetic_torque,
    mechanical_speed, calcular_temperatura, currents_and_fluxes_phases, fromDQ0]
  rw [if_neg hlt]
  simp [hVs, hcl, hfsd, hfsq, hfrd, hfrq, hisd, hisq, hird, hirq, hiso, hwm, hce, htemp]

lemma preRecord_cross (s : State) (hr : atRest s)
    (hge : s.t + mo0.h ≥ mo0.tmax / 2) : (preRecord mo0 s).wm = -(1 / 100) := by
  obtain ⟨hVs, hcl, hfsd, hfsq, hfrd, hfrq, hisd, hisq, hird, hirq, hiso,
    hwm, hce, htemp⟩ := hr
  simp only [preRecord, source_voltage, load_torque, direct_voltage_and_quadrature,
    calculate_derivatives, update_fluxes_and_currents, calculate_electromagnetic_torque,
    mechanical_speed, calcular_temperatura, currents_and_fluxes_phases, fromDQ0]
  rw [if_pos hge]
  simp [hVs, hcl, hfsd, hfsq, hfrd, hfrq, hisd, hisq, hird, hirq, hiso, hwm, hce]
  rw [mo0_h, mo0_jm]
  norm_num

lemma step_rest (s : State) (hr : atRest s)
    (hlt : ¬ (s.t + mo0.h ≥ mo0.tmax / 2)) : atRest (step mo0 s) := by
  rw [step_eq_ite]
  split
  · exact preRecord_rest s hr hlt
  · exact preRecord_rest s hr hlt

lemma step_cross (s : State) (hr : atRest s)
    (hge : s.t + mo0.h ≥ mo0.tmax / 2) : (step mo0 s).wm = -(1 / 100) := by
  rw [step_eq_ite]
  split
  · exact preRecord_cross s hr hge
  · exact preRecord_cross s hr hge

lemma rest_traj (n : ℕ) (hn : (n : ℝ) * mo0.h < mo0.tmax / 2) :
    atRest ((step mo0)^[n] s0z) ∧ ((step mo0)^[n] s0z).t = (n : ℝ) * mo0.h := by
  induction n with
  | zero =>
    refine ⟨s0z_atRest, ?_⟩
    show (0 : ℝ) = (Nat.cast 0) * mo0.h
    simp
  | succ k ih =>
    have hh : (0 : ℝ) < mo0.h := by rw [mo0_h]; norm_num
    have hcast : ((k + 1 : ℕ) : ℝ) = (k : ℝ) + 1 := by push_cast; ring
    have hk : (k : ℝ) * mo0.h < mo0.tmax / 2 := by
      rw [hcast] at hn; nlinarith
    obtain ⟨hr, ht⟩ := ih hk
    have hlt : ¬ (((step mo0)^[k] s0z).t + mo0.h ≥ mo0.tmax / 2) := by
      rw [ht]; rw [hcast] at hn; push_neg; nlinarith
    constructor
    · rw [Function.iterate_succ_apply']
      exact step_rest _ hr hlt
    · rw [Function.iterate_succ_apply', step_t, ht, hcast]; ring

/-!  Decimated output recording over the reference run (C8).  -/

/-- Number of recorded samples after `n` iterations of the reference
run: one at the first step and then one every 50 steps. -/
def cnt (n : ℕ) : ℕ := if n = 0 then 0 else n / 50 + 1

/-- The `j`-th recorded time of the reference run. -/
def gtime (j : ℕ) : ℝ := if j = 0 then mo0.h else (j : ℝ) * mo0.hp

lemma record_cond_iff (n k : ℕ) :
    ((n : ℝ) * mo0.h + mo0.h ≥ (k : ℝ) * mo0.hp) ↔ n + 1 ≥ 50 * k := by
  rw [mo0_h, mo0_hp]
  constructor
  · intro hR
    have h2 : ((50 * k : ℕ) : ℝ) ≤ ((n + 1 : ℕ) : ℝ) := by push_cast; nlinarith
    exact_mod_cast h2
  · intro hN
    have h2 : ((50 * k : ℕ) : ℝ) ≤ ((n + 1 : ℕ) : ℝ) := by exact_mod_cast hN
    push_cast at h2; nlinarith

lemma cnt_succ_of_record (k : ℕ) (hrec : k + 1 ≥ 50 * cnt k) :
    cnt (k + 1) = cnt k + 1 := by
  rcases Nat.eq_zero_or_pos k with h0 | hpos
  · subst h0; simp [cnt]
  · have h1 : cnt k = k / 50 + 1 := by unfold cnt; rw [if_neg (by omega)]
    have h2 : cnt (k + 1) = (k + 1) / 50 + 1 := by unfold cnt; rw [if_neg (by omega)]
    rw [h1] at hrec
    rw [h1, h2]
    omega

lemma cnt_succ_of_skip (k : ℕ) (hrec : ¬ (k + 1 ≥ 50 * cnt k)) :
    cnt (k + 1) = cnt k := by
  rcases Nat.eq_zero_or_pos k with h0 | hpos
  · subst h0; simp [cnt] at hrec
  · have h1 : cnt k = k / 50 + 1 := by unfold cnt; rw [if_neg (by omega)]
    have h2 : cnt (k + 1) = (k + 1) / 50 + 1 := by unfold cnt; rw [if_neg (by omega)]
    rw [h1] at hrec
    rw [h1, h2]
    omega

lemma gtime_cnt (k : ℕ) (hrec : k + 1 ≥ 50 * cnt k) :
    gtime (cnt k) = ((k : ℝ) + 1) * mo0.h := by
  unfold cnt at hrec ⊢
  rcases Nat.eq_zero_or_pos k with h0 | hpos
  · subst h0
    rw [if_pos rfl]
    unfold gtime
    rw [if_pos rfl]
    norm_num
  · rw [if_neg (by omega)] at hrec ⊢
    unfold gtime
    rw [if_neg (by omega), mo0_h, mo0_hp]
    have heq : 50 * (k / 50 + 1) = k + 1 := by omega
    have hcast : ((k / 50 + 1 : ℕ) : ℝ) * (1 / 2000) =
        ((50 * (k / 50 + 1) : ℕ) : ℝ) * 1e-5 := by push_cast; ring
    rw [hcast, heq]
    push_cast; ring

lemma trace_inv (n : ℕ) :
    ((step mo0)^[n] initState).t = (n : ℝ) * mo0.h ∧
    ((step mo0)^[n] initState).tp = (cnt n : ℝ) * mo0.hp ∧
    ((step mo0)^[n] initState).tempo = (List.range (cnt n)).map gtime := by
  induction n with
  | zero =>
    refine ⟨?_, ?_, ?_⟩ <;> simp [initState, cnt]
  | succ k ih =>
    obtain ⟨ht, htp, htm⟩ := ih
    rw [Function.iterate_succ_apply', step_t, step_tp, step_tempo, ht, htp, htm]
    by_cases hrec : k + 1 ≥ 50 * cnt k
    · have hcond : (k : ℝ) * mo0.h + mo0.h ≥ (cnt k : ℝ) * mo0.hp :=
        (record_cond_iff k (cnt k)).mpr hrec
      rw [if_pos hcond, if_pos hcond, cnt_succ_of_record k hrec]
      refine ⟨by push_cast; ring, by push_cast; ring, ?_⟩
      rw [List.range_succ, List.map_append, List.map_singleton, gtime_cnt k hrec]
      ring_nf
    · have hcond : ¬ ((k : ℝ) * mo0.h + mo0.h ≥ (cnt k : ℝ) * mo0.hp) := by
        intro hcont; exact hrec ((record_cond_iff k (cnt k)).mp hcont)
      rw [if_neg hcond, if_neg hcond, cnt_succ_of_skip k hrec]
      exact ⟨by push_cast; ring, rfl, rfl⟩

lemma simulateAux_stop (mo : Motor) (fuel : ℕ) (s : State)
    (hstop : ¬ s.t < mo.tmax) : simulateAux mo fuel s = s := by
  cases fuel <;> simp [simulateAux, hstop]

lemma simulateAux_go (mo : Motor) (fuel : ℕ) (s : State) (hgo : s.t < mo.tmax) :
    simulateAux mo (fuel + 1) s = simulateAux mo fuel (step mo s) := by
  simp [simulateAux, hgo]

lemma simulateAux_iterate (mo : Motor) :
    ∀ (k fuel : ℕ) (s : State), k ≤ fuel →
      (∀ i, i < k → ((step mo)^[i] s).t < mo.tmax) →
      ¬ ((step mo)^[k] s).t < mo.tmax →
      simulateAux mo fuel s = (step mo)^[k] s := by
  intro k
  induction k with
  | zero =>
    intro fuel s _ _ hstop
    exact simulateAux_stop mo fuel s (by simpa using hstop)
  | succ j ihj =>
    intro fuel s hle hlt hstop
    obtain ⟨f, rfl⟩ : ∃ f, fuel = f + 1 := ⟨fuel - 1, by omega⟩
    rw [simulateAux_go mo f s (by simpa using hlt 0 (by omega))]
    have hlt2 : ∀ i, i < j → ((step mo)^[i] (step mo s)).t < mo.tmax := by
      intro i hi
      rw [← Function.iterate_succ_apply]
      exact hlt (i + 1) (by omega)
    have hstop2 : ¬ ((step mo)^[j] (step mo s)).t < mo.tmax := by
      rw [← Function.iterate_succ_apply]
      exact hstop
    rw [ihj f (step mo s) (by omega) hlt2 hstop2, ← Function.iterate_succ_apply]

lemma simulate_mo0_eq : simulate mo0 initState = (step mo0)^[100000] initState := by
  unfold simulate
  refine simulateAux_iterate mo0 100000 1000000 initState (by omega) ?_ ?_
  · intro i hi
    rw [(trace_inv i).1, mo0_h, mo0_tmax]
    have hle : (i : ℝ) ≤ 99999 := by exact_mod_cast Nat.lt_succ_iff.mp (by omega)
    nlinarith
  · rw [(trace_inv 100000).1, mo0_h, mo0_tmax]
    norm_num

/-!  Claim theorems.  -/

/-- C1: one electrical step advances the flux/zero-sequence-current
state by exactly one explicit-Euler step of the specified ODE: the five
derivatives are `vsd - Rs*isd`, `vsq - Rs*isq`, `-Rr*ird - Phirq*wm`,
`-Rr*irq + Phird*wm`, `(vso - Rs*iso)/Lleak`; each flux component and
`iso` is updated as state plus derivative times `h`; and the
zero-sequence stator flux is recomputed afterwards as `Lleak * iso`
from the updated `iso` rather than being integrated. -/
theorem electrical_step_is_explicit_euler (mo : Motor) (s : State)
    (vsd vsq vso : ℝ) :
    (calculate_derivatives mo s vsd vsq vso).1 = vsd - mo.rs * s.isd ∧
    (calculate_derivatives mo s vsd vsq vso).2.1 = vsq - mo.rs * s.isq ∧
    (calculate_derivatives mo s vsd vsq vso).2.2.1 = -mo.rr * s.ird - s.frq * s.wm ∧
    (calculate_derivatives mo s vsd vsq vso).2.2.2.1 = -mo.rr * s.irq + s.frd * s.wm ∧
    (calculate_derivatives mo s vsd vsq vso).2.2.2.2 = (vso - mo.rs * s.iso) / mo.lso ∧
    ∀ d1 d2 d3 d4 d5 : ℝ,
      (update_fluxes_and_currents mo s d1 d2 d3 d4 d5).1.fsd = s.fsd + d1 * mo.h ∧
      (update_fluxes_and_currents mo s d1 d2 d3 d4 d5).1.fsq = s.fsq + d2 * mo.h ∧
      (update_fluxes_and_currents mo s d1 d2 d3 d4 d5).1.frd = s.frd + d3 * mo.h ∧
      (update_fluxes_and_currents mo s d1 d2 d3 d4 d5).1.frq = s.frq + d4 * mo.h ∧
      (update_fluxes_and_currents mo s d1 d2 d3 d4 d5).1.iso = s.iso + d5 * mo.h ∧
      (update_fluxes_and_currents mo s d1 d2 d3 d4 d5).2 =
        mo.lso * (update_fluxes_and_currents mo s d1 d2 d3 d4 d5).1.iso :=
  ⟨rfl, rfl, rfl, rfl, rfl, fun _ _ _ _ _ => ⟨rfl, rfl, rfl, rfl, rfl, rfl⟩⟩

/-- C2: the derived-quantity computation returns exactly
`Te = amsr*(Phisq*Phird - Phisd*Phirq)` and the four current formulas
`isd = idt*(Lr*Phisd - Msr*Phird)`, `isq = idt*(Lr*Phisq - Msr*Phirq)`,
`ird = idt*(-Msr*Phisd + Ls*Phird)`, `irq = idt*(-Msr*Phisq + Ls*Phirq)`,
as pure algebraic functions of the flux state (which it leaves
unchanged) with no time derivative involved. -/
theorem torque_and_currents_algebraic (mo : Motor) (s : State) :
    (calculate_electromagnetic_torque mo s).ce =
      mo.amsr * (s.fsq * s.frd - s.fsd * s.frq) ∧
    (calculate_electromagnetic_torque mo s).isd =
      mo.idt * (mo.lr * s.fsd - mo.msr * s.frd) ∧
    (calculate_electromagnetic_torque mo s).isq =
      mo.idt * (mo.lr * s.fsq - mo.msr * s.frq) ∧
    (calculate_electromagnetic_torque mo s).ird =
      mo.idt * (-mo.msr * s.fsd + mo.ls * s.frd) ∧
    (calculate_electromagnetic_torque mo s).irq =
      mo.idt * (-mo.msr * s.fsq + mo.ls * s.frq) ∧
    (calculate_electromagnetic_torque mo s).fsd = s.fsd ∧
    (calculate_electromagnetic_torque mo s).fsq = s.fsq ∧
    (calculate_electromagnetic_torque mo s).frd = s.frd ∧
    (calculate_electromagnetic_torque mo s).frq = s.frq :=
  ⟨rfl, rfl, rfl, rfl, rfl, rfl, rfl, rfl, rfl⟩

/-- C10: the three phase currents returned by
`currents_and_fluxes_phases` do not depend on the zero-sequence-flux
argument `fso`; consequently the thermal model, which passes the dummy
value `fso = 1`, derives its RMS-equivalent current from the true
instantaneous phase currents whatever `fso` is. -/
theorem phase_currents_ignore_fso (mo : Motor) (s : State) (fso fso2 : ℝ) :
    (currents_and_fluxes_phases s fso).1 = (currents_and_fluxes_phases s fso2).1 ∧
    (currents_and_fluxes_phases s fso).2.1 = (currents_and_fluxes_phases s fso2).2.1 ∧
    (currents_and_fluxes_phases s fso).2.2.1 = (currents_and_fluxes_phases s fso2).2.2.1 ∧
    calcular_temperatura mo mo.h s =
      s.temp + mo.rs * (Real.sqrt ((currents_and_fluxes_phases s fso).1 ^ 2 +
        (currents_and_fluxes_phases s fso).2.1 ^ 2 +
        (currents_and_fluxes_phases s fso).2.2.1 ^ 2)) ^ 2 * mo.h /
          (mStator * cHeat) :=
  ⟨rfl, rfl, rfl, rfl⟩

/-- C4 counterexample: zero-input rest is not preserved for all steps
of the run.  Starting from the reset state with zero source-voltage
amplitude, zero load torque and all fluxes/currents/speed at zero, the
iterated simulation step leaves the mechanical speed at zero only until
mid-horizon: at iteration 50000 (`t = tmax/2`) the hard-coded load-step
`cl = 40` makes the speed `-1/100 ≠ 0`. -/
theorem zero_input_rest_not_fixed :
    s0z.Vs = 0 ∧ s0z.cl = 0 ∧ s0z.wm = 0 ∧
    ((step mo0)^[50000] s0z).wm = -(1 / 100) ∧
    ((step mo0)^[50000] s0z).wm ≠ s0z.wm := by
  obtain ⟨hr, ht⟩ := rest_traj 49999 (by rw [mo0_h, mo0_tmax]; norm_num)
  have hge : ((step mo0)^[49999] s0z).t + mo0.h ≥ mo0.tmax / 2 := by
    rw [ht, mo0_h, mo0_tmax]; norm_num
  have h50 : ((step mo0)^[50000] s0z).wm = -(1 / 100) := by
    rw [show (50000 : ℕ) = 49999 + 1 by norm_num, Function.iterate_succ_apply']
    exact step_cross _ hr hge
  refine ⟨rfl, rfl, rfl, h50, ?_⟩
  rw [h50]
  show (-(1 / 100) : ℝ) ≠ 0
  norm_num

/-- C4 amended: under zero source-voltage amplitude and zero initial
load torque, the state starting at zero fluxes, currents and speed with
the initial temperature is left at that rest point by every simulation
step taken before mid-horizon (every `n` with `n*h < tmax/2`); once
`t ≥ tmax/2` the hard-coded load torque of `40` drives the speed away
from zero, so the fixed point does not persist for the whole run. -/
theorem zero_input_rest_first_half (n : ℕ)
    (hn : (n : ℝ) * mo0.h < mo0.tmax / 2) :
    atRest ((step mo0)^[n] s0z) :=
  (rest_traj n hn).1

/-- C4 amended, witness: the rest point survives the first 100 steps of
the zero-amplitude run. -/
theorem zero_input_rest_first_half_witness : atRest ((step mo0)^[100] s0z) :=
  zero_input_rest_first_half 100 (by rw [mo0_h, mo0_tmax]; norm_num)

/-- C8: over the full reference run the recorded time sequence is
strictly increasing, consecutive recorded times differ from `hp` by at
most one `h`, and the number of recorded samples (2001) differs from
`⌈tmax/hp⌉ = 2000` by at most 1. -/
theorem output_trace_sampling :
    ((simulate mo0 initState).tempo).Chain' (fun a b => a < b) ∧
    ((simulate mo0 initState).tempo).Chain' (fun a b => |b - a - mo0.hp| ≤ mo0.h) ∧
    (simulate mo0 initState).tempo.length = 2001 ∧
    |((simulate mo0 initState).tempo.length : ℤ) - ⌈mo0.tmax / mo0.hp⌉| ≤ 1 := by
  have hcnt : cnt 100000 = 2001 := by
    unfold cnt
    rw [if_neg (by omega)]
  have htrace : (simulate mo0 initState).tempo = (List.range 2001).map gtime := by
    rw [simulate_mo0_eq, (trace_inv 100000).2.2, hcnt]
  have hceil : ⌈mo0.tmax / mo0.hp⌉ = (2000 : ℤ) := by
    rw [mo0_tmax, mo0_hp]
    have he : (1 : ℝ) / (1 / 2000) = ((2000 : ℤ) : ℝ) := by norm_num
    rw [he, Int.ceil_intCast]
  have hmono : ∀ m, m < 2000 → gtime m < gtime (m + 1) := by
    intro m hm
    unfold gtime
    rcases Nat.eq_zero_or_pos m with h0 | hpos
    · subst h0
      rw [if_pos rfl, if_neg (by omega), mo0_h, mo0_hp]
      push_cast
      norm_num
    · rw [if_neg (by omega), if_neg (by omega), mo0_hp]
      push_cast
      linarith
  have hspace : ∀ m, m < 2000 → |gtime (m + 1) - gtime m - mo0.hp| ≤ mo0.h := by
    intro m hm
    unfold gtime
    rcases Nat.eq_zero_or_pos m with h0 | hpos
    · subst h0
      rw [if_pos rfl, if_neg (by omega), mo0_h, mo0_hp]
      have he : ((0 + 1 : ℕ) : ℝ) * (1 / 2000) - 1e-5 - 1 / 2000 = -(1e-5) := by
        push_cast; ring
      rw [he, abs_neg, abs_of_nonneg (show (0 : ℝ) ≤ 1e-5 by norm_num)]
    · rw [if_neg (by omega), if_neg (by omega), mo0_h, mo0_hp]
      have he : ((m + 1 : ℕ) : ℝ) * (1 / 2000) - (m : ℝ) * (1 / 2000) - 1 / 2000 = 0 := by
        push_cast; ring
      rw [he, abs_zero]
      norm_num
  refine ⟨?_, ?_, ?_, ?_⟩
  · rw [htrace, List.chain'_map, show (2001 : ℕ) = 2000 + 1 by norm_num,
      List.chain'_range_succ]
    exact hmono
  · rw [htrace, List.chain'_map, show (2001 : ℕ) = 2000 + 1 by norm_num,
      List.chain'_range_succ]
    exact hspace
  · rw [htrace, List.length_map, List.length_range]
  · rw [htrace, hceil, List.length_map, List.length_range]
    norm_num

/-- C3: applying the dq0 inverse transform (the `x1/x2/x3` formulas used
for phase currents and fluxes) to the result of the forward transform
(the `xd/xq/x0` formulas used on voltages) returns the original triple
exactly in the real-arithmetic model, hence in particular within the
claimed `1e-9` absolute tolerance. -/
theorem dq0_round_trip (a b c : ℝ) :
    fromDQ0 (direct_voltage_and_quadrature a b c).1
      (direct_voltage_and_quadrature a b c).2.1
      (direct_voltage_and_quadrature a b c).2.2 = (a, b, c) ∧
    |(fromDQ0 (direct_voltage_and_quadrature a b c).1
      (direct_voltage_and_quadrature a b c).2.1
      (direct_voltage_and_quadrature a b c).2.2).1 - a| ≤ 1e-9 ∧
    |(fromDQ0 (direct_voltage_and_quadrature a b c).1
      (direct_voltage_and_quadrature a b c).2.1
      (direct_voltage_and_quadrature a b c).2.2).2.1 - b| ≤ 1e-9 ∧
    |(fromDQ0 (direct_voltage_and_quadrature a b c).1
      (direct_voltage_and_quadrature a b c).2.1
      (direct_voltage_and_quadrature a b c).2.2).2.2 - c| ≤ 1e-9 := by
  have d1 : rq23 * rq23 = 2 / 3 := Real.mul_self_sqrt (by norm_num)
  have d3 : rq3 * rq3 = 3 := Real.mul_self_sqrt (by norm_num)
  have h1 : (fromDQ0 (direct_voltage_and_quadrature a b c).1
      (direct_voltage_and_quadrature a b c).2.1
      (direct_voltage_and_quadrature a b c).2.2).1 = a := by
    simp only [fromDQ0, direct_voltage_and_quadrature]
    rw [div_div, d3, ← mul_assoc, d1]
    ring
  have h2 : (fromDQ0 (direct_voltage_and_quadrature a b c).1
      (direct_voltage_and_quadrature a b c).2.1
      (direct_voltage_and_quadrature a b c).2.2).2.1 = b := by
    simp only [fromDQ0, direct_voltage_and_quadrature]
    rw [div_div, d3]
    linear_combination (rq3 * rq3 * (b - c) / 4 - (a - b / 2 - c / 2) / 2) * d1 +
      ((b - c) / 6) * d3
  have h3 : (fromDQ0 (direct_voltage_and_quadrature a b c).1
      (direct_voltage_and_quadrature a b c).2.1
      (direct_voltage_and_quadrature a b c).2.2).2.2 = c := by
    simp only [fromDQ0, direct_voltage_and_quadrature]
    rw [div_div, d3]
    linear_combination (-(rq3 * rq3 * (b - c)) / 4 - (a - b / 2 - c / 2) / 2) * d1 +
      (-(b - c) / 6) * d3
  refine ⟨?_, ?_, ?_, ?_⟩
  · exact Prod.ext h1 (Prod.ext h2 h3)
  · rw [h1]; norm_num
  · rw [h2]; norm_num
  · rw [h3]; norm_num

/-- Concrete state used to refute C5: the reset state with a nonzero
prior load torque. -/
def s5cex : State := { initState with cl := 7 }

/-- C5 counterexample: `load_torque` is not a pure function of elapsed
time.  At time `t = 0 < tmax/2` with prior load torque `7`, the load
torque after the call is `7`, not `0`: the method only latches the
value `40` at mid-horizon and otherwise keeps the prior state. -/
theorem load_torque_depends_on_state :
    s5cex.t < mo0.tmax / 2 ∧
    (load_torque mo0 s5cex).cl = 7 ∧
    (load_torque mo0 s5cex).cl ≠ 0 := by
  have ht : s5cex.t = 0 := rfl
  have hcond : ¬ (s5cex.t ≥ mo0.tmax / 2) := by
    rw [ht, mo0_tmax]; norm_num
  have hlt : load_torque mo0 s5cex = s5cex := if_neg hcond
  refine ⟨?_, ?_, ?_⟩
  · rw [ht, mo0_tmax]; norm_num
  · rw [hlt]; rfl
  · rw [hlt]; show (7 : ℝ) ≠ 0; norm_num

/-- C5 amended: `load_torque` sets the load torque to exactly `40`
whenever `t ≥ tmax/2` (exact threshold, no hysteresis in forward time)
and keeps the prior value otherwise; hence whenever the prior load
torque is `0` — as it is throughout the first half of any run started
from `reset_initial_conditions` — the post value is `0` for
`t < tmax/2` and `40` for `t ≥ tmax/2`. -/
theorem load_torque_of_zero_prior (mo : Motor) (s : State) (h0 : s.cl = 0) :
    (load_torque mo s).cl = if s.t ≥ mo.tmax / 2 then 40 else 0 := by
  unfold load_torque
  split <;> simp [h0]

/-- C5 amended, witness: with zero prior load torque at `t = 0.7` the
reference motor latches the load torque `40`. -/
theorem load_torque_of_zero_prior_witness :
    (load_torque mo0 { initState with t := 0.7 }).cl = 40 := by
  have h := load_torque_of_zero_prior mo0 { initState with t := 0.7 } rfl
  rw [h, if_pos]
  show (0.7 : ℝ) ≥ mo0.tmax / 2
  rw [mo0_tmax]; norm_num

/-- C6: each thermal update adds to the stator temperature exactly
`Rs * (i1^2 + i2^2 + i3^2) * h / (m*C)` where `i1, i2, i3` are the
instantaneous phase currents, `m = 65/1.5` and `C = 0.385`; the
increment already carries the factor `h` inside (the update is
`T += dT`, with a single `h` factor, not `T += dT*h`). -/
theorem thermal_update_formula (mo : Motor) (hstep : ℝ) (s : State) :
    calcular_temperatura mo hstep s =
      s.temp + mo.rs * ((currents_and_fluxes_phases s 1).1 ^ 2 +
        (currents_and_fluxes_phases s 1).2.1 ^ 2 +
        (currents_and_fluxes_phases s 1).2.2.1 ^ 2) * mo.h / (mStator * cHeat) ∧
    mStator = 65 / 1.5 ∧ cHeat = 0.385 := by
  refine ⟨?_, rfl, rfl⟩
  simp only [calcular_temperatura]
  rw [Real.sq_sqrt (by positivity)]

/-- C7: the stator temperature is non-decreasing across the thermal
update, for any state, given `Rs ≥ 0` and `h ≥ 0` (the model has no
ambient cooling term). -/
theorem temperature_nondecreasing (mo : Motor) (hstep : ℝ) (s : State)
    (hrs : 0 ≤ mo.rs) (hh : 0 ≤ mo.h) :
    s.temp ≤ calcular_temperatura mo hstep s := by
  unfold calcular_temperatura
  have hnum : 0 ≤ mo.rs * Real.sqrt ((currents_and_fluxes_phases s 1).1 ^ 2 +
      (currents_and_fluxes_phases s 1).2.1 ^ 2 +
      (currents_and_fluxes_phases s 1).2.2.1 ^ 2) ^ 2 * mo.h :=
    mul_nonneg (mul_nonneg hrs (sq_nonneg _)) hh
  have hden : (0 : ℝ) < mStator * cHeat := by unfold mStator cHeat; norm_num
  have := div_nonneg hnum hden.le
  linarith

/-- C7 witness: the thermal update does not decrease the temperature of
the reset state of the reference motor. -/
theorem temperature_nondecreasing_witness :
    initState.temp ≤ calcular_temperatura mo0 mo0.h initState :=
  temperature_nondecreasing mo0 mo0.h initState
    (by rw [mo0_rs]; norm_num) (by rw [mo0_h]; norm_num)

/-- C9: configuration errors are rejected at construction: a zero
determinant `ls*lr = mrs^2` makes the constructor fail (in Python the
division `1/(ls*lr - mrs*mrs)` raises `ZeroDivisionError`), and every
successfully constructed instance has a positive step size `h`, a
sampling interval `hp ≥ h` (the step size is the hard-coded `1e-5` and
the clamping logic forces `hp` up to `h`), and a nonzero determinant, so
`idt` is defined. -/
theorem construction_rejects_bad_config
    (rs rr ls lr mrs jm kf q1 q2 q3 valor_mu : ℝ) :
    (ls * lr - mrs * mrs = 0 →
      mkMotor rs rr ls lr mrs jm kf q1 q2 q3 valor_mu = none) ∧
    ∀ m : Motor, mkMotor rs rr ls lr mrs jm kf q1 q2 q3 valor_mu = some m →
      0 < m.h ∧ m.h ≤ m.hp ∧ m.ls * m.lr - m.msr * m.msr ≠ 0 := by
  constructor
  · intro hdet
    unfold mkMotor
    rw [if_pos (Or.inr hdet)]
  · intro m hm
    unfold mkMotor at hm
    by_cases hc : kf = 0 ∨ ls * lr - mrs * mrs = 0
    · rw [if_pos hc] at hm
      exact absurd hm (by simp)
    · rw [if_neg hc] at hm
      have hm2 : motorFields rs rr ls lr mrs jm kf q1 q2 q3 valor_mu = m :=
        Option.some.inj hm
      subst hm2
      push_neg at hc
      refine ⟨?_, ?_, ?_⟩
      · have e : (motorFields rs rr ls lr mrs jm kf q1 q2 q3 valor_mu).h = 1e-5 := rfl
        rw [e]; norm_num
      · have e : (motorFields rs rr ls lr mrs jm kf q1 q2 q3 valor_mu).h = 1e-5 := rfl
        have e2 : (motorFields rs rr ls lr mrs jm kf q1 q2 q3 valor_mu).hp =
            if (1 : ℝ) / 2000 < 1e-5 then 1e-5 else (1 : ℝ) / 2000 := rfl
        rw [e, e2, if_neg (by norm_num)]; norm_num
      · exact hc.2

/-- C9 witness: a degenerate determinant (`ls = lr = mrs = 1`) is
rejected, and the reference machine satisfies the constructed-instance
invariants. -/
theorem construction_rejects_bad_config_witness :
    mkMotor 1 1 1 1 1 1 1 1 1 1 1 = none ∧
    (0 < mo0.h ∧ mo0.h ≤ mo0.hp ∧ mo0.ls * mo0.lr - mo0.msr * mo0.msr ≠ 0) := by
  constructor
  · exact (construction_rejects_bad_config 1 1 1 1 1 1 1 1 1 1 1).1 (by norm_num)
  · refine (construction_rejects_bad_config 0.39 1.41 0.094 0.094 0.091
      0.04 0.01 1 1 0 1).2 mo0 ?_
    unfold mkMotor
    rw [if_neg (by push_neg; constructor <;> norm_num)]
    rfl

end Powertrain
